import Mathlib

/-
Verification development for the per-user task tracking service implemented
in src/index.js: JWT-based identity middleware, per-owner task CRUD handlers,
and a per-owner read-through cache with invalidation on successful writes.
The handlers are embedded as pure state transformers; the external
dependencies (jsonwebtoken, NodeCache, bcrypt, express-validator internals)
are modelled from the contracts stated in the specification.
-/

set_option linter.unusedVariables false

namespace TaskApi

/-- JSON-like value appearing in request body fields. -/
inductive JVal where
  | jstr (s : String)
  | jbool (b : Bool)
  | jnum (n : Int)
  | jnull
deriving DecidableEq

/-- A task document of the Mongo task collection (src/index.js lines 35-48):
title, completion flag, owning user id, and the timestamps added by Mongoose.
Object ids and times are modelled as naturals. -/
structure Task where
  id : Nat
  title : String
  complete : Bool
  userId : Nat
  createdAt : Nat
  updatedAt : Nat
deriving DecidableEq

/-- A user document (src/index.js lines 50-58): username and password hash. -/
structure User where
  id : Nat
  username : String
  password : String
deriving DecidableEq

/-- Payload of a signed token: the subject user id and the absolute expiry
time in seconds. -/
structure Payload where
  sub : Nat
  exp : Nat
deriving DecidableEq

/-- A signature value: records which secret signed which payload, so checking
a signature amounts to recomputing it. -/
structure Sig where
  secret : String
  signed : Payload
deriving DecidableEq

/-- Modelled from the spec: the jsonwebtoken library behind jwt.sign and
jwt.verify (src/index.js lines 77, 121, 152) is an external dependency whose
code is not part of this repository. A token is either a well formed signed
payload or a malformed blob. -/
inductive Token where
  | signedTok (p : Payload) (sg : Sig)
  | malformed (raw : String)
deriving DecidableEq

/-- Modelled from the spec: jwt.sign with an expiresIn of one hour embeds the
subject id and an absolute expiry exactly 3600 seconds after issuance. -/
def issueTok (secret : String) (now : Nat) (id : Nat) : Token :=
  .signedTok ⟨id, now + 3600⟩ ⟨secret, ⟨id, now + 3600⟩⟩

/-- Modelled from the spec: jwt.verify fails when the signature does not
match, the token is malformed, or the current time is at or past the embedded
expiry; otherwise it returns the subject id. -/
def verifyTok (secret : String) (now : Nat) (t : Token) : Option Nat :=
  match t with
  | .malformed _ => none
  | .signedTok p sg =>
    if sg = (⟨secret, p⟩ : Sig) then
      (if now < p.exp then some p.sub else none)
    else none

/-- Response bodies produced by the handlers in src/index.js. -/
inductive Body where
  | errMsg (e : String)
  | errWithMsg (e m : String)
  | errFields (fs : List String)
  | tokenB (t : Token)
  | taskB (t : Task)
  | tasksB (ts : List Task)
  | msgTask (m : String) (t : Task)
  | msg (m : String)
deriving DecidableEq

/-- An HTTP response: a status code and a JSON body. -/
structure Resp where
  status : Nat
  body : Body
deriving DecidableEq

/-- Whitespace for the JavaScript string trim. -/
def isWs (c : Char) : Bool :=
  c == ' ' || c == '\t' || c == '\n' || c == '\r'

def trimL (l : List Char) : List Char :=
  ((l.dropWhile isWs).reverse.dropWhile isWs).reverse

/-- Model of the JavaScript String.prototype.trim. -/
def jsTrim (s : String) : String :=
  ⟨trimL s.toList⟩

def isPrefixL : List Char → List Char → Bool
  | [], _ => true
  | _ :: _, [] => false
  | a :: as, b :: bs => a == b && isPrefixL as bs

/-- Model of the JavaScript String.prototype.startsWith for a string
pattern. -/
def jsStartsWith (pat s : String) : Bool :=
  isPrefixL pat.toList s.toList

def replaceFirstL (pat repl : List Char) : List Char → List Char
  | [] => if pat.isEmpty then repl else []
  | c :: rest =>
    if isPrefixL pat (c :: rest) then repl ++ (c :: rest).drop pat.length
    else c :: replaceFirstL pat repl rest

/-- Model of the JavaScript String.prototype.replace with a string pattern:
only the first occurrence is replaced. -/
def jsReplaceFirst (pat repl s : String) : String :=
  ⟨replaceFirstL pat.toList repl.toList s.toList⟩

/-- Token extraction of the auth middleware (src/index.js line 72): when the
raw Authorization header starts with the Bearer prefix, the first occurrence
of the prefix is replaced by the empty string; otherwise the token is null. -/
def extractToken (raw : Option String) : Option String :=
  match raw with
  | none => none
  | some s =>
    if jsStartsWith ("Bearer ") s then some (jsReplaceFirst ("Bearer ") ("") s)
    else none

/-- The per owner cache content of the NodeCache instance: entries keyed by
owner id holding the cached task list and its insertion time. -/
abbrev Cache := List (Nat × (List Task × Nat))

def cacheLookup (c : Cache) (o : Nat) : Option (List Task × Nat) :=
  (c.find? (fun e => e.1 == o)).map (fun e => e.2)

/-- Modelled from the spec: NodeCache with stdTTL 600 (src/index.js line 17)
is an external dependency; per the spec a cached entry is served only while
unexpired, the TTL being 600 seconds from insertion. -/
def cacheGet (c : Cache) (o : Nat) (now : Nat) : Option (List Task) :=
  match cacheLookup c o with
  | none => none
  | some (l, ti) => if now < ti + 600 then some l else none

def cacheSet (c : Cache) (o : Nat) (l : List Task) (now : Nat) : Cache :=
  (o, (l, now)) :: c.filter (fun e => e.1 != o)

def cacheDel (c : Cache) (o : Nat) : Cache :=
  c.filter (fun e => e.1 != o)

/-- The mutable server state: the Mongo task collection, the NodeCache
content, and a counter supplying fresh object ids. -/
structure St where
  store : List Task
  cache : Cache
  nextId : Nat
deriving DecidableEq

def insertDesc (t : Task) : List Task → List Task
  | [] => [t]
  | x :: xs => if x.createdAt < t.createdAt then t :: x :: xs else x :: insertDesc t xs

def sortDesc : List Task → List Task
  | [] => []
  | x :: xs => insertDesc x (sortDesc xs)

/-- The store query of GET /tasks (src/index.js lines 166-168): all tasks of
the owner, sorted by creation time descending. -/
def fetchTasks (store : List Task) (o : Nat) : List Task :=
  sortDesc (store.filter (fun t => t.userId == o))

/-- GET /tasks handler (src/index.js lines 160-175): serve the cached list
when the cache holds an unexpired entry, else fetch from the store, populate
the cache and return the fetched list. -/
def listTasks (now : Nat) (o : Nat) (s : St) : Resp × St :=
  match cacheGet s.cache o now with
  | some l => (⟨200, .tasksB l⟩, s)
  | none =>
    (⟨200, .tasksB (fetchTasks s.store o)⟩,
      { s with cache := cacheSet s.cache o (fetchTasks s.store o) now })

/-- The fields of a task request body that the Mongoose schema would apply;
fields outside the schema are stripped by strict mode. The userId field
models a castable object id present in the raw body; it is not touched by
validateTaskUpdate, which only checks title and complete. -/
structure TaskBody where
  title : Option JVal
  complete : Option JVal
  userId : Option Nat
deriving DecidableEq

/-- Modelled from the spec: the express-validator checks are an external
dependency; per the spec the title must be a string, non empty, and at least
3 characters long after trimming. -/
def titleOkCreate (v : Option JVal) : Bool :=
  match v with
  | some (.jstr s) => s != "" && decide (3 ≤ (jsTrim s).length)
  | _ => false

/-- Modelled from the spec: a provided complete value must be a boolean. -/
def completeOk (v : Option JVal) : Bool :=
  match v with
  | none => true
  | some (.jbool _) => true
  | some _ => false

def titleOkUpdate (v : Option JVal) : Bool :=
  match v with
  | none => true
  | some x => titleOkCreate (some x)

/-- Violated fields reported by validateTaskCreate (src/index.js lines
95-98). -/
def validateTaskCreate (b : TaskBody) : List String :=
  (if titleOkCreate b.title then [] else [("title" : String)]) ++
  (if completeOk b.complete then [] else [("complete" : String)])

/-- Violated fields reported by validateTaskUpdate (src/index.js lines
100-103): both fields are optional. -/
def validateTaskUpdate (b : TaskBody) : List String :=
  (if titleOkUpdate b.title then [] else [("title" : String)]) ++
  (if completeOk b.complete then [] else [("complete" : String)])

/-- The stored title of a created task: the sanitizer and the schema both
trim it. -/
def bodyTitle (b : TaskBody) : String :=
  match b.title with
  | some (.jstr s) => jsTrim s
  | _ => ""

/-- The stored completion flag of a created task: the destructuring defaults
a missing complete to false. -/
def bodyComplete (b : TaskBody) : Bool :=
  match b.complete with
  | some (.jbool v) => v
  | _ => false

/-- POST /tasks handler (src/index.js lines 177-193). The storeFails flag
models the store operation throwing, which the catch block maps to a 500
without touching the cache. -/
def createTask (storeFails : Bool) (now o : Nat) (b : TaskBody) (s : St) : Resp × St :=
  if validateTaskCreate b ≠ [] then (⟨400, .errFields (validateTaskCreate b)⟩, s)
  else if storeFails then (⟨500, .errMsg ("Internal server error")⟩, s)
  else
    (⟨201, .taskB ⟨s.nextId, bodyTitle b, bodyComplete b, o, now, now⟩⟩,
      { store := s.store ++ [⟨s.nextId, bodyTitle b, bodyComplete b, o, now, now⟩],
        cache := cacheDel s.cache o,
        nextId := s.nextId + 1 })

/-- The composite query used by the single task handlers: first task matching
both the id and the owning user id. -/
def findTask (store : List Task) (tid o : Nat) : Option Task :=
  store.find? (fun t => t.id == tid && t.userId == o)

/-- GET /tasks/:id handler (src/index.js lines 195-214): lookup scoped to the
caller; a miss is a 404 that does not distinguish absent from foreign. -/
def getTask (o tid : Nat) (s : St) : Resp × St :=
  match findTask s.store tid o with
  | none =>
    (⟨404, .errWithMsg ("Task not found")
        ("No task exists with the provided id for this user")⟩, s)
  | some t => (⟨200, .msgTask ("Task retrieved successfully!") t⟩, s)

def patchTitle (b : TaskBody) (t : Task) : String :=
  match b.title with
  | some (.jstr s2) => jsTrim s2
  | _ => t.title

def patchComplete (b : TaskBody) (t : Task) : Bool :=
  match b.complete with
  | some (.jbool v) => v
  | _ => t.complete

def patchUserId (b : TaskBody) (t : Task) : Nat :=
  match b.userId with
  | some u => u
  | none => t.userId

/-- The update document applied by findOneAndUpdate (src/index.js lines
222-226): req.body is passed wholesale, so every schema field present in the
body is set, including userId; updatedAt is refreshed by the timestamps
option. -/
def applyPatch (b : TaskBody) (now : Nat) (t : Task) : Task :=
  { t with
    title := patchTitle b t,
    complete := patchComplete b t,
    userId := patchUserId b t,
    updatedAt := now }

def updateFirst (p : Task → Bool) (f : Task → Task) : List Task → List Task
  | [] => []
  | x :: xs => if p x then f x :: xs else x :: updateFirst p f xs

def removeFirst (p : Task → Bool) : List Task → List Task
  | [] => []
  | x :: xs => if p x then xs else x :: removeFirst p xs

/-- PUT /tasks/:id handler (src/index.js lines 216-235): validate the
optional fields, then findOneAndUpdate scoped to the id and owner, applying
req.body; the cache entry of the caller is removed only on a match. -/
def updateTask (storeFails : Bool) (now o tid : Nat) (b : TaskBody) (s : St) : Resp × St :=
  if validateTaskUpdate b ≠ [] then (⟨400, .errFields (validateTaskUpdate b)⟩, s)
  else if storeFails then (⟨500, .errMsg ("Internal server error")⟩, s)
  else
    match findTask s.store tid o with
    | none => (⟨404, .errMsg ("Task not found")⟩, s)
    | some t =>
      (⟨200, .taskB (applyPatch b now t)⟩,
        { s with
          store := updateFirst (fun x => x.id == tid && x.userId == o)
            (applyPatch b now) s.store,
          cache := cacheDel s.cache o })

/-- DELETE /tasks/:id handler (src/index.js lines 237-251): findOneAndDelete
scoped to the id and owner; the cache entry is removed only on a match. -/
def deleteTask (storeFails : Bool) (o tid : Nat) (s : St) : Resp × St :=
  if storeFails then (⟨500, .errMsg ("Internal server error")⟩, s)
  else
    match findTask s.store tid o with
    | none => (⟨404, .errMsg ("Task not found")⟩, s)
    | some _ =>
      (⟨200, .msg ("Task deleted")⟩,
        { s with
          store := removeFirst (fun x => x.id == tid && x.userId == o) s.store,
          cache := cacheDel s.cache o })

/-- The auth middleware (src/index.js lines 70-83): a missing header or a
header without the Bearer prefix yields a null token; a null or empty token
is falsy and rejected with the missing token 401; a token failing
verification is rejected with the invalid token 401; otherwise the subject id
is bound as the request identity. -/
def auth (verifyFn : String → Option Nat) (hdr : Option String) : Except Resp Nat :=
  match extractToken hdr with
  | none => .error ⟨401, .errMsg ("Access denied: missing token")⟩
  | some tok =>
    if tok == "" then .error ⟨401, .errMsg ("Access denied: missing token")⟩
    else
      match verifyFn tok with
      | some id => .ok id
      | none => .error ⟨401, .errMsg ("Invalid or expired token")⟩

/-- A protected route: the downstream handler runs exactly when the auth
middleware succeeds, receiving the bound identity. -/
def runProtected (verifyFn : String → Option Nat) (hdr : Option String)
    (handler : Nat → St → Resp × St) (s : St) : Resp × St :=
  match auth verifyFn hdr with
  | .error e => (e, s)
  | .ok id => handler id s

/-- Violated fields reported by validateLogin (src/index.js lines 90-93) on
string inputs: both fields must be non empty. -/
def loginErrors (username password : String) : List String :=
  (if username == "" then [("username" : String)] else []) ++
  (if password == "" then [("password" : String)] else [])

/-- POST /login handler (src/index.js lines 138-158), parametrised by the
bcrypt compare function, which is an external primitive: validate the fields,
find the user by username, compare the password against the stored hash; both
failure paths return an identical 401 body. -/
def login (verifyHash : String → String → Bool) (secret : String) (now : Nat)
    (users : List User) (username password : String) : Resp :=
  if username == "" || password == "" then
    ⟨400, .errFields (loginErrors username password)⟩
  else
    match users.find? (fun u => u.username == username) with
    | none => ⟨401, .errMsg ("Invalid credentials")⟩
    | some u =>
      if verifyHash u.password password then ⟨200, .tokenB (issueTok secret now u.id)⟩
      else ⟨401, .errMsg ("Invalid credentials")⟩

/-- State invariant: task ids are unique and below the id counter, and every
cached entry holds only tasks whose owning user id is the key of the
entry. -/
def Inv (s : St) : Prop :=
  (s.store.map Task.id).Nodup ∧
  (∀ t ∈ s.store, t.id < s.nextId) ∧
  (∀ e ∈ s.cache, ∀ t ∈ e.2.1, t.userId = e.1)

instance decInv (s : St) : Decidable (Inv s) :=
  inferInstanceAs (Decidable ((s.store.map Task.id).Nodup ∧
    (∀ t ∈ s.store, t.id < s.nextId) ∧
    (∀ e ∈ s.cache, ∀ t ∈ e.2.1, t.userId = e.1)))

theorem mem_insertDesc (x t : Task) (l : List Task) :
    x ∈ insertDesc t l ↔ x = t ∨ x ∈ l := by
  induction l with
  | nil => simp [insertDesc]
  | cons a as ih =>
    simp only [insertDesc]
    by_cases h : a.createdAt < t.createdAt
    · simp [h]
    · simp [h, ih]
      tauto

theorem mem_sortDesc (x : Task) (l : List Task) :
    x ∈ sortDesc l ↔ x ∈ l := by
  induction l with
  | nil => simp [sortDesc]
  | cons a as ih => simp [sortDesc, mem_insertDesc, ih]

theorem mem_fetchTasks (x : Task) (store : List Task) (o : Nat)
    (h : x ∈ fetchTasks store o) : x ∈ store ∧ x.userId = o := by
  rw [fetchTasks, mem_sortDesc, List.mem_filter] at h
  exact ⟨h.1, by simpa using h.2⟩

theorem findTask_none_of_other_owner (s : St) (hInv : Inv s) (t : Task)
    (ht : t ∈ s.store) (B : Nat) (hB : t.userId ≠ B) :
    findTask s.store t.id B = none := by
  rw [findTask, List.find?_eq_none]
  intro x hx
  simp only [Bool.and_eq_true, beq_iff_eq, not_and]
  intro hid hu
  have hxt : x = t := List.inj_on_of_nodup_map hInv.1 hx ht hid
  exact hB (hxt ▸ hu)

theorem cacheLookup_del (c : Cache) (o : Nat) :
    cacheLookup (cacheDel c o) o = none := by
  have h : List.find? (fun e => e.1 == o) (cacheDel c o) = none := by
    rw [List.find?_eq_none]
    intro e he
    have h2 := (List.mem_filter.mp he).2
    simp only [bne_iff_ne, ne_eq] at h2
    simp [h2]
  rw [cacheLookup, h]
  rfl

theorem cacheGet_del (c : Cache) (o now : Nat) :
    cacheGet (cacheDel c o) o now = none := by
  rw [cacheGet, cacheLookup_del]

theorem listTasks_of_del (s : St) (c : Cache) (o now : Nat)
    (h : s.cache = cacheDel c o) :
    listTasks now o s =
      (⟨200, .tasksB (fetchTasks s.store o)⟩,
        { s with cache := cacheSet s.cache o (fetchTasks s.store o) now }) := by
  rw [listTasks, h, cacheGet_del]

theorem cacheGet_mem_userId (s : St) (hInv : Inv s) (o now : Nat)
    (l : List Task) (h : cacheGet s.cache o now = some l) :
    ∀ x ∈ l, x.userId = o := by
  cases hcl : cacheLookup s.cache o with
  | none => simp only [cacheGet, hcl] at h; exact absurd h (by simp)
  | some pr =>
    obtain ⟨l0, ti⟩ := pr
    simp only [cacheGet, hcl] at h
    by_cases hn : now < ti + 600
    · rw [if_pos hn] at h
      cases h
      rw [cacheLookup] at hcl
      cases hf : List.find? (fun e => e.1 == o) s.cache with
      | none => rw [hf] at hcl; exact absurd hcl (by simp)
      | some e0 =>
        rw [hf] at hcl
        have he0 : e0.2 = (l, ti) := by simpa using hcl
        have hmem : e0 ∈ s.cache := List.mem_of_find?_eq_some hf
        have hkey : e0.1 = o := by
          have := List.find?_some hf
          simpa using this
        intro x hx
        have hx0 : x ∈ e0.2.1 := by rw [he0]; exact hx
        rw [hInv.2.2 e0 hmem x hx0, hkey]
    · rw [if_neg hn] at h
      exact absurd h (by simp)

theorem applyPatch_id (b : TaskBody) (now : Nat) (t : Task) :
    (applyPatch b now t).id = t.id := rfl

theorem applyPatch_createdAt (b : TaskBody) (now : Nat) (t : Task) :
    (applyPatch b now t).createdAt = t.createdAt := rfl

theorem updateFirst_map_id (p : Task → Bool) (f : Task → Task)
    (hf : ∀ x, (f x).id = x.id) (l : List Task) :
    (updateFirst p f l).map Task.id = l.map Task.id := by
  induction l with
  | nil => rfl
  | cons a as ih =>
    simp only [updateFirst]
    by_cases h : p a
    · simp [h, hf]
    · simp [h, ih]

theorem mem_updateFirst (p : Task → Bool) (f : Task → Task) (x : Task)
    (l : List Task) (hx : x ∈ updateFirst p f l) :
    x ∈ l ∨ ∃ y ∈ l, x = f y := by
  induction l with
  | nil => simp [updateFirst] at hx
  | cons a as ih =>
    simp only [updateFirst] at hx
    by_cases h : p a
    · rw [if_pos h] at hx
      rcases List.mem_cons.mp hx with h1 | h1
      · exact Or.inr ⟨a, List.mem_cons_self a as, h1⟩
      · exact Or.inl (List.mem_cons_of_mem a h1)
    · rw [if_neg h] at hx
      rcases List.mem_cons.mp hx with h1 | h1
      · exact Or.inl (h1 ▸ List.mem_cons_self a as)
      · rcases ih h1 with h2 | ⟨y, hy, hxy⟩
        · exact Or.inl (List.mem_cons_of_mem a h2)
        · exact Or.inr ⟨y, List.mem_cons_of_mem a hy, hxy⟩

theorem removeFirst_sublist (p : Task → Bool) (l : List Task) :
    (removeFirst p l).Sublist l := by
  induction l with
  | nil => simp [removeFirst]
  | cons a as ih =>
    simp only [removeFirst]
    by_cases h : p a
    · rw [if_pos h]
      exact List.sublist_cons_of_sublist a (List.Sublist.refl as)
    · rw [if_neg h]
      exact List.Sublist.cons₂ a ih

theorem mem_cacheDel (c : Cache) (o : Nat) (e : Nat × (List Task × Nat))
    (h : e ∈ cacheDel c o) : e ∈ c :=
  (List.mem_filter.mp h).1

theorem inv_listTasks (now o : Nat) (s : St) (h : Inv s) :
    Inv (listTasks now o s).2 := by
  rw [listTasks]
  cases hg : cacheGet s.cache o now with
  | some l => exact h
  | none =>
    refine ⟨h.1, h.2.1, ?_⟩
    intro e he
    rcases List.mem_cons.mp he with h1 | h1
    · intro t htm
      rw [h1]
      have hm : t ∈ fetchTasks s.store o := by
        have : e.2.1 = fetchTasks s.store o := by rw [h1]
        rw [← this]; exact htm
      exact (mem_fetchTasks t s.store o hm).2
    · exact h.2.2 e (List.mem_filter.mp h1).1

theorem inv_createTask (sf : Bool) (now o : Nat) (b : TaskBody) (s : St)
    (h : Inv s) : Inv (createTask sf now o b s).2 := by
  rw [createTask]
  by_cases hv : validateTaskCreate b ≠ []
  · rw [if_pos hv]; exact h
  · rw [if_neg hv]
    cases sf with
    | true => exact h
    | false =>
      simp only [Bool.false_eq_true, if_false]
      refine ⟨?_, ?_, ?_⟩
      · rw [List.map_append, List.nodup_append]
        refine ⟨h.1, by simp, ?_⟩
        intro a ha
        simp only [List.map_cons, List.map_nil, List.mem_singleton]
        rcases List.mem_map.mp ha with ⟨t, htm, hid⟩
        have := h.2.1 t htm
        omega
      · intro t htm
        rcases List.mem_append.mp htm with h1 | h1
        · have := h.2.1 t h1
          show t.id < s.nextId + 1
          omega
        · simp only [List.mem_singleton] at h1
          rw [h1]
          show s.nextId < s.nextId + 1
          omega
      · intro e he
        exact h.2.2 e (mem_cacheDel s.cache o e he)

theorem inv_updateTask (sf : Bool) (now o tid : Nat) (b : TaskBody) (s : St)
    (h : Inv s) : Inv (updateTask sf now o tid b s).2 := by
  rw [updateTask]
  by_cases hv : validateTaskUpdate b ≠ []
  · rw [if_pos hv]; exact h
  · rw [if_neg hv]
    cases sf with
    | true => exact h
    | false =>
      simp only [Bool.false_eq_true, if_false]
      cases hf : findTask s.store tid o with
      | none => exact h
      | some t =>
        refine ⟨?_, ?_, ?_⟩
        · rw [updateFirst_map_id _ _ (fun x => applyPatch_id b now x)]
          exact h.1
        · intro x hxm
          rcases mem_updateFirst _ _ x s.store hxm with h1 | ⟨y, hy, hxy⟩
          · exact h.2.1 x h1
          · rw [hxy, applyPatch_id]
            exact h.2.1 y hy
        · intro e he
          exact h.2.2 e (mem_cacheDel s.cache o e he)

theorem inv_deleteTask (sf : Bool) (o tid : Nat) (s : St) (h : Inv s) :
    Inv (deleteTask sf o tid s).2 := by
  rw [deleteTask]
  cases sf with
  | true => exact h
  | false =>
    simp only [Bool.false_eq_true, if_false]
    cases hf : findTask s.store tid o with
    | none => exact h
    | some t =>
      refine ⟨?_, ?_, ?_⟩
      · exact ((removeFirst_sublist _ s.store).map Task.id).nodup h.1
      · intro x hxm
        exact h.2.1 x ((removeFirst_sublist _ s.store).subset hxm)
      · intro e he
        exact h.2.2 e (mem_cacheDel s.cache o e he)

theorem inv_getTask (o tid : Nat) (s : St) : (getTask o tid s).2 = s := by
  rw [getTask]
  cases findTask s.store tid o <;> rfl

/-- C1: ownership isolation. For any state satisfying the invariant, a task
owned by user A and a caller B with a different identity: getTask answers 404
and changes nothing, updateTask leaves the state unchanged and, when the
patch validates, answers 404, deleteTask leaves the state unchanged and
answers 404, and the list returned by listTasks never contains the task. -/
theorem claim_C1 (s : St) (hInv : Inv s) (t : Task) (ht : t ∈ s.store)
    (B : Nat) (hB : t.userId ≠ B) :
    getTask B t.id s =
      (⟨404, .errWithMsg ("Task not found")
          ("No task exists with the provided id for this user")⟩, s)
    ∧ (∀ sf now b, (updateTask sf now B t.id b s).2 = s)
    ∧ (∀ now b, validateTaskUpdate b = [] →
        (updateTask false now B t.id b s).1.status = 404)
    ∧ (∀ sf, (deleteTask sf B t.id s).2 = s)
    ∧ (deleteTask false B t.id s).1.status = 404
    ∧ (∀ now l, (listTasks now B s).1.body = .tasksB l → t ∉ l) := by
  have hnone := findTask_none_of_other_owner s hInv t ht B hB
  refine ⟨?_, ?_, ?_, ?_, ?_, ?_⟩
  · rw [getTask, hnone]
  · intro sf now b
    rw [updateTask]
    by_cases hv : validateTaskUpdate b ≠ []
    · rw [if_pos hv]
    · rw [if_neg hv]
      cases sf with
      | true => rfl
      | false => simp only [Bool.false_eq_true, if_false, hnone]
  · intro now b hv
    rw [updateTask, if_neg (by simp [hv])]
    simp only [Bool.false_eq_true, if_false, hnone]
  · intro sf
    rw [deleteTask]
    cases sf with
    | true => rfl
    | false => simp only [Bool.false_eq_true, if_false, hnone]
  · rw [deleteTask]
    simp only [Bool.false_eq_true, if_false, hnone]
  · intro now l hl hmem
    cases hg : cacheGet s.cache B now with
    | some l0 =>
      simp only [listTasks, hg] at hl
      have hl0 : l0 = l := by simpa using hl
      have := cacheGet_mem_userId s hInv B now l0 hg t (hl0 ▸ hmem)
      exact hB this
    | none =>
      simp only [listTasks, hg] at hl
      have hl0 : fetchTasks s.store B = l := by simpa using hl
      have := (mem_fetchTasks t s.store B (hl0 ▸ hmem)).2
      exact hB this

def wTask : Task := ⟨1, ("write report"), false, 7, 0, 0⟩

def wState : St := ⟨[wTask], [], 2⟩

/-- Witness for C1 at a concrete state: one task owned by user 7, accessed as
user 9. -/
theorem claim_C1_w :
    Inv wState ∧ wTask ∈ wState.store ∧ wTask.userId ≠ 9
    ∧ getTask 9 wTask.id wState =
      (⟨404, .errWithMsg ("Task not found")
          ("No task exists with the provided id for this user")⟩, wState)
    ∧ (deleteTask false 9 wTask.id wState).1.status = 404 := by
  have h := claim_C1 wState (by decide) wTask (by decide) 9 (by decide)
  exact ⟨by decide, by decide, by decide, h.1, h.2.2.2.2.1⟩

def bugBody : TaskBody := ⟨none, none, some 9⟩

/-- C2: the update handler passes req.body wholesale to findOneAndUpdate, so
a body carrying a userId field passes validateTaskUpdate, the update succeeds
with 200, and the stored task changes its owning user id from 7 to 9; the
owner is therefore not immutable under update, contradicting the claim. -/
theorem claim_C2 :
    validateTaskUpdate bugBody = []
    ∧ (updateTask false 5 7 1 bugBody wState).1.status = 200
    ∧ (updateTask false 5 7 1 bugBody wState).2.store
        = [⟨1, ("write report"), false, 9, 0, 5⟩] := by decide

/-- C3: read-after-write cache coherence. After a successful create, update
or delete for owner o, the immediately following listTasks for o returns
exactly the task list fetched from the post-write store, not a cached
list. -/
theorem claim_C3 (s : St) (now now2 o tid : Nat) (b : TaskBody) :
    (validateTaskCreate b = [] →
      (listTasks now2 o (createTask false now o b s).2).1
        = ⟨200, .tasksB (fetchTasks (createTask false now o b s).2.store o)⟩)
    ∧ ((updateTask false now o tid b s).1.status = 200 →
      (listTasks now2 o (updateTask false now o tid b s).2).1
        = ⟨200, .tasksB (fetchTasks (updateTask false now o tid b s).2.store o)⟩)
    ∧ ((deleteTask false o tid s).1.status = 200 →
      (listTasks now2 o (deleteTask false o tid s).2).1
        = ⟨200, .tasksB (fetchTasks (deleteTask false o tid s).2.store o)⟩) := by
  refine ⟨?_, ?_, ?_⟩
  · intro hv
    have hc : (createTask false now o b s).2.cache = cacheDel s.cache o := by
      simp [createTask, hv]
    rw [listTasks_of_del _ s.cache o now2 hc]
  · intro h200
    by_cases hv : validateTaskUpdate b = []
    · cases hf : findTask s.store tid o with
      | none => simp [updateTask, hv, hf] at h200
      | some t =>
        have hc : (updateTask false now o tid b s).2.cache = cacheDel s.cache o := by
          simp [updateTask, hv, hf]
        rw [listTasks_of_del _ s.cache o now2 hc]
    · simp [updateTask, hv] at h200
  · intro h200
    cases hf : findTask s.store tid o with
    | none => simp [deleteTask, hf] at h200
    | some t =>
      have hc : (deleteTask false o tid s).2.cache = cacheDel s.cache o := by
        simp [deleteTask, hf]
      rw [listTasks_of_del _ s.cache o now2 hc]

def cBody : TaskBody := ⟨some (.jstr ("buy milk")), none, none⟩

/-- Witness for C3: creating a task for owner 7 and then listing tasks for 7
returns the fresh store fetch. -/
theorem claim_C3_w :
    (listTasks 1 7 (createTask false 0 7 cBody wState).2).1
      = ⟨200, .tasksB (fetchTasks (createTask false 0 7 cBody wState).2.store 7)⟩ :=
  (claim_C3 wState 0 1 7 0 cBody).1 (by decide)

/-- C4: token round trip and failure condition. Verification of an issued
token at any time strictly before its expiry, one hour after issuance,
returns the subject id; verification fails exactly when the token is
malformed, the signature does not match, or the time is at or past the
embedded expiry, and succeeds returning the subject otherwise. -/
theorem claim_C4 (secret raw : String) (id t0 t : Nat) (p : Payload) (sg : Sig) :
    (t < t0 + 3600 → verifyTok secret t (issueTok secret t0 id) = some id)
    ∧ verifyTok secret t (.malformed raw) = none
    ∧ (verifyTok secret t (.signedTok p sg) = none ↔
        sg ≠ (⟨secret, p⟩ : Sig) ∨ p.exp ≤ t)
    ∧ (∀ i, verifyTok secret t (.signedTok p sg) = some i ↔
        (sg = (⟨secret, p⟩ : Sig) ∧ t < p.exp ∧ p.sub = i)) := by
  refine ⟨?_, rfl, ?_, ?_⟩
  · intro h
    simp [issueTok, verifyTok, h]
  · by_cases hs : sg = (⟨secret, p⟩ : Sig)
    · by_cases hexp : t < p.exp
      · simp only [verifyTok, if_pos hs, if_pos hexp]
        simp [hs]
        omega
      · simp only [verifyTok, if_pos hs, if_neg hexp]
        simp [hs]
        omega
    · simp only [verifyTok, if_neg hs]
      simp [hs]
  · intro i
    by_cases hs : sg = (⟨secret, p⟩ : Sig)
    · by_cases hexp : t < p.exp
      · simp only [verifyTok, if_pos hs, if_pos hexp]
        simp [hs, hexp]
      · simp only [verifyTok, if_pos hs, if_neg hexp]
        simp [hs, hexp]
    · simp only [verifyTok, if_neg hs]
      simp [hs]

/-- Witness for C4: a token issued at time 0 for subject 42 verifies to 42 at
time 3599, one second before the expiry. -/
theorem claim_C4_w :
    3599 < 0 + 3600
    ∧ verifyTok ("s3cret") 3599 (issueTok ("s3cret") 0 42) = some 42 :=
  ⟨by decide,
    (claim_C4 ("s3cret") ("x") 42 0 3599 ⟨0, 0⟩ ⟨("s3cret"), ⟨0, 0⟩⟩).1 (by decide)⟩

/-- C5: the identity middleware gate. A missing Authorization header, or one
not starting with the case sensitive Bearer prefix, yields the missing token
401 and the handler result is discarded for every handler; an extracted non
empty token failing verification yields the invalid token 401; on successful
verification the handler runs with the resolved subject id bound. -/
theorem claim_C5 (verifyFn : String → Option Nat) (hdr : Option String)
    (handler : Nat → St → Resp × St) (s : St) :
    (hdr = none →
      runProtected verifyFn hdr handler s
        = (⟨401, .errMsg ("Access denied: missing token")⟩, s))
    ∧ (∀ raw, hdr = some raw → jsStartsWith ("Bearer ") raw = false →
      runProtected verifyFn hdr handler s
        = (⟨401, .errMsg ("Access denied: missing token")⟩, s))
    ∧ (∀ tok, extractToken hdr = some tok → tok ≠ ("") → verifyFn tok = none →
      runProtected verifyFn hdr handler s
        = (⟨401, .errMsg ("Invalid or expired token")⟩, s))
    ∧ (∀ tok i, extractToken hdr = some tok → tok ≠ ("") → verifyFn tok = some i →
      runProtected verifyFn hdr handler s = handler i s) := by
  refine ⟨?_, ?_, ?_, ?_⟩
  · intro h
    subst h
    rfl
  · intro raw h hsw
    subst h
    have he : extractToken (some raw) = none := by
      simp [extractToken, hsw]
    simp [runProtected, auth, he]
  · intro tok he hne hv
    simp [runProtected, auth, he, hne, hv]
  · intro tok i he hne hv
    simp [runProtected, auth, he, hne, hv]

def wVerify : String → Option Nat :=
  fun tok => if tok == ("abc") then some 5 else none

def wHandler : Nat → St → Resp × St :=
  fun i s2 => (⟨200, .msg ("hi")⟩, s2)

/-- Witness for C5 at concrete headers: absent header, wrong scheme, bad
token, and a verifying token that reaches the handler with identity 5. -/
theorem claim_C5_w :
    runProtected wVerify none wHandler wState
      = (⟨401, .errMsg ("Access denied: missing token")⟩, wState)
    ∧ runProtected wVerify (some ("Token abc")) wHandler wState
      = (⟨401, .errMsg ("Access denied: missing token")⟩, wState)
    ∧ runProtected wVerify (some ("Bearer xyz")) wHandler wState
      = (⟨401, .errMsg ("Invalid or expired token")⟩, wState)
    ∧ runProtected wVerify (some ("Bearer abc")) wHandler wState = wHandler 5 wState := by
  refine ⟨(claim_C5 wVerify none wHandler wState).1 rfl,
    (claim_C5 wVerify (some ("Token abc")) wHandler wState).2.1 ("Token abc") rfl (by decide),
    (claim_C5 wVerify (some ("Bearer xyz")) wHandler wState).2.2.1 ("xyz")
      (by decide) (by decide) (by decide),
    (claim_C5 wVerify (some ("Bearer abc")) wHandler wState).2.2.2 ("abc") 5
      (by decide) (by decide) (by decide)⟩

/-- C9: a header consisting of exactly the Bearer prefix with nothing after
it extracts the empty token, which is falsy, so the request is rejected with
the missing token response, not the invalid token one, for every verifier and
handler. -/
theorem claim_C9 (verifyFn : String → Option Nat)
    (handler : Nat → St → Resp × St) (s : St) :
    runProtected verifyFn (some ("Bearer ")) handler s
      = (⟨401, .errMsg ("Access denied: missing token")⟩, s) := by
  have he : extractToken (some ("Bearer ")) = some ("") := by decide
  simp [runProtected, auth, he]

/-- C6: login noninterference. With validation passing inputs and unique
usernames, login succeeds with a token exactly when a user with the given
username exists whose stored hash verifies against the password, and the two
failure paths, unknown username and failing hash comparison, produce the
identical 401 response. -/
theorem claim_C6 (verifyHash : String → String → Bool) (secret : String)
    (now : Nat) (users : List User) (u pw : String)
    (hnd : (users.map User.username).Nodup) (hu : u ≠ ("")) (hp : pw ≠ ("")) :
    ((∃ tok, login verifyHash secret now users u pw = ⟨200, .tokenB tok⟩)
        ↔ ∃ usr ∈ users, usr.username = u ∧ verifyHash usr.password pw = true)
    ∧ (users.find? (fun x => x.username == u) = none →
        login verifyHash secret now users u pw
          = ⟨401, .errMsg ("Invalid credentials")⟩)
    ∧ (∀ usr, users.find? (fun x => x.username == u) = some usr →
        verifyHash usr.password pw = false →
        login verifyHash secret now users u pw
          = ⟨401, .errMsg ("Invalid credentials")⟩) := by
  have hcond : (u == ("") || pw == ("")) = false := by
    simp [hu, hp]
  refine ⟨⟨?_, ?_⟩, ?_, ?_⟩
  · rintro ⟨tok, htok⟩
    simp only [login, hcond, Bool.false_eq_true, if_false] at htok
    cases hf : users.find? (fun x => x.username == u) with
    | none =>
      simp only [hf] at htok
      exact absurd htok (by simp)
    | some usr =>
      simp only [hf] at htok
      by_cases hv : verifyHash usr.password pw
      · refine ⟨usr, List.mem_of_find?_eq_some hf, ?_, hv⟩
        have h2 := List.find?_some hf
        simpa using h2
      · rw [if_neg hv] at htok
        exact absurd htok (by simp)
  · rintro ⟨usr, hmem, hname, hv⟩
    cases hf : users.find? (fun x => x.username == u) with
    | none =>
      rw [List.find?_eq_none] at hf
      exact absurd (by simp [hname] : (fun x => x.username == u) usr = true) (hf usr hmem)
    | some usr2 =>
      have hmem2 := List.mem_of_find?_eq_some hf
      have hname2 : usr2.username = u := by simpa using List.find?_some hf
      have heq : usr2 = usr :=
        List.inj_on_of_nodup_map hnd hmem2 hmem (by rw [hname2, hname])
      refine ⟨issueTok secret now usr2.id, ?_⟩
      simp only [login, hcond, Bool.false_eq_true, if_false, hf]
      rw [if_pos (show verifyHash usr2.password pw = true from by rw [heq]; exact hv)]
  · intro hf
    simp only [login, hcond, Bool.false_eq_true, if_false, hf]
  · intro usr hf hv
    simp only [login, hcond, Bool.false_eq_true, if_false, hf]
    rw [if_neg (by simp [hv])]

def wHash : String → String → Bool :=
  fun stored pw2 => stored == ("H:") ++ pw2

def wUsers : List User := [⟨3, ("alice"), ("H:pw123456")⟩]

/-- Witness for C6: the known user with the right password logs in, while an
unknown username and a wrong password both produce the same 401 body. -/
theorem claim_C6_w :
    (∃ tok, login wHash ("k") 0 wUsers ("alice") ("pw123456") = ⟨200, .tokenB tok⟩)
    ∧ login wHash ("k") 0 wUsers ("bob") ("pw123456")
        = ⟨401, .errMsg ("Invalid credentials")⟩
    ∧ login wHash ("k") 0 wUsers ("alice") ("wrong1")
        = ⟨401, .errMsg ("Invalid credentials")⟩ := by
  refine ⟨?_, ?_, ?_⟩
  · exact ((claim_C6 wHash ("k") 0 wUsers ("alice") ("pw123456")
      (by decide) (by decide) (by decide)).1).mpr
      ⟨⟨3, ("alice"), ("H:pw123456")⟩, by decide, by decide, by decide⟩
  · exact (claim_C6 wHash ("k") 0 wUsers ("bob") ("pw123456")
      (by decide) (by decide) (by decide)).2.1 (by decide)
  · exact (claim_C6 wHash ("k") 0 wUsers ("alice") ("wrong1")
      (by decide) (by decide) (by decide)).2.2 ⟨3, ("alice"), ("H:pw123456")⟩
      (by decide) (by decide)

/-- C7: create validation. For a create request whose title field is a string,
if the trimmed title is shorter than 3 characters, which covers the empty
after trimming case, or a provided complete value is not a boolean, the
handler answers 400 with the list of violated fields, each violated field
appearing in the list, and the store is unchanged; otherwise a task owned by
the caller is created and appended to the store. -/
theorem claim_C7 (s : St) (now o : Nat) (b : TaskBody) (ttl : String)
    (hb : b.title = some (.jstr ttl)) :
    (((jsTrim ttl).length < 3 ∨ completeOk b.complete = false) →
      (createTask false now o b s).1 = ⟨400, .errFields (validateTaskCreate b)⟩
      ∧ (createTask false now o b s).2 = s
      ∧ ((jsTrim ttl).length < 3 → ("title" : String) ∈ validateTaskCreate b)
      ∧ (completeOk b.complete = false →
          ("complete" : String) ∈ validateTaskCreate b))
    ∧ ((3 ≤ (jsTrim ttl).length ∧ completeOk b.complete = true) →
      (createTask false now o b s).1
        = ⟨201, .taskB ⟨s.nextId, jsTrim ttl, bodyComplete b, o, now, now⟩⟩
      ∧ (createTask false now o b s).2.store
        = s.store ++ [⟨s.nextId, jsTrim ttl, bodyComplete b, o, now, now⟩]) := by
  have htOk : titleOkCreate b.title
      = (ttl != ("") && decide (3 ≤ (jsTrim ttl).length)) := by
    rw [hb]
    rfl
  constructor
  · intro hbad
    have hne : validateTaskCreate b ≠ [] := by
      rcases hbad with hlt | hcf
      · have h3 : ¬ (3 ≤ (jsTrim ttl).length) := by omega
        have ht : titleOkCreate b.title = false := by
          rw [htOk]
          simp [h3]
        simp [validateTaskCreate, ht]
      · have hmc : ("complete" : String) ∈ validateTaskCreate b := by
          simp [validateTaskCreate, hcf]
        intro h0
        rw [h0] at hmc
        simp at hmc
    refine ⟨by simp [createTask, hne], by simp [createTask, hne], ?_, ?_⟩
    · intro hlt
      have h3 : ¬ (3 ≤ (jsTrim ttl).length) := by omega
      have ht : titleOkCreate b.title = false := by
        rw [htOk]
        simp [h3]
      simp [validateTaskCreate, ht]
    · intro hcf
      simp [validateTaskCreate, hcf]
  · rintro ⟨h3, hcOk⟩
    have hne2 : ttl ≠ ("") := by
      intro h0
      rw [h0] at h3
      exact absurd h3 (by decide)
    have ht : titleOkCreate b.title = true := by
      rw [htOk]
      simp [hne2, h3]
    have hval0 : validateTaskCreate b = [] := by
      simp [validateTaskCreate, ht, hcOk]
    constructor
    · simp [createTask, hval0, bodyTitle, hb]
    · simp [createTask, hval0, bodyTitle, hb]

def badBody : TaskBody := ⟨some (.jstr ("ab")), none, none⟩

/-- Witness for C7: a title of length 2 yields a 400 whose validation errors
reference the title field, and the state is unchanged. -/
theorem claim_C7_w :
    (createTask false 0 7 badBody wState).1
      = ⟨400, .errFields (validateTaskCreate badBody)⟩
    ∧ (createTask false 0 7 badBody wState).2 = wState
    ∧ ("title" : String) ∈ validateTaskCreate badBody := by
  have h := (claim_C7 wState 0 7 badBody ("ab") rfl).1 (Or.inl (by decide))
  exact ⟨h.1, h.2.1, h.2.2.1 (by decide)⟩

/-- C8: cache TTL bound. An entry inserted at time ti is never returned by a
cache read at or after ti plus 600 seconds: the read is a miss and the list
handler performs a fresh store fetch, repopulating the cache. -/
theorem claim_C8 (s : St) (o now ti : Nat) (l : List Task)
    (h : cacheLookup s.cache o = some (l, ti)) (hexp : ti + 600 ≤ now) :
    cacheGet s.cache o now = none
    ∧ (listTasks now o s).1 = ⟨200, .tasksB (fetchTasks s.store o)⟩
    ∧ (listTasks now o s).2.cache
        = cacheSet s.cache o (fetchTasks s.store o) now := by
  have hg : cacheGet s.cache o now = none := by
    simp only [cacheGet, h]
    rw [if_neg (by omega)]
  exact ⟨hg, by simp [listTasks, hg], by simp [listTasks, hg]⟩

def wStateC : St := ⟨[wTask], [(7, ([wTask], 0))], 2⟩

/-- Witness for C8: an entry cached at time 0 is not served at time 600, and
the list handler fetches from the store instead. -/
theorem claim_C8_w :
    cacheLookup wStateC.cache 7 = some ([wTask], 0)
    ∧ 0 + 600 ≤ 600
    ∧ cacheGet wStateC.cache 7 600 = none
    ∧ (listTasks 600 7 wStateC).1 = ⟨200, .tasksB (fetchTasks wStateC.store 7)⟩ := by
  have h := claim_C8 wStateC 7 600 0 [wTask] (by decide) (by decide)
  exact ⟨by decide, by decide, h.1, h.2.1⟩

/-- C10: atomicity of the cache on failure. Whenever a create, update or
delete request does not succeed, whether by validation error, missing match
or store failure, the whole state, cache included, is left unchanged: cache
invalidation happens only after the store write succeeds. -/
theorem claim_C10 (s : St) (now o tid : Nat) (b : TaskBody) (sf : Bool) :
    ((createTask sf now o b s).1.status ≠ 201 → (createTask sf now o b s).2 = s)
    ∧ ((updateTask sf now o tid b s).1.status ≠ 200 →
        (updateTask sf now o tid b s).2 = s)
    ∧ ((deleteTask sf o tid s).1.status ≠ 200 → (deleteTask sf o tid s).2 = s) := by
  refine ⟨?_, ?_, ?_⟩
  · intro h
    by_cases hv : validateTaskCreate b ≠ []
    · simp [createTask, hv]
    · cases sf with
      | true => simp [createTask, hv]
      | false => exact absurd (by simp [createTask, hv]) h
  · intro h
    by_cases hv : validateTaskUpdate b ≠ []
    · simp [updateTask, hv]
    · cases sf with
      | true => simp [updateTask, hv]
      | false =>
        cases hf : findTask s.store tid o with
        | none => simp [updateTask, hv, hf]
        | some t => exact absurd (by simp [updateTask, hv, hf]) h
  · intro h
    cases sf with
    | true => simp [deleteTask]
    | false =>
      cases hf : findTask s.store tid o with
      | none => simp [deleteTask, hf]
      | some t => exact absurd (by simp [deleteTask, hf]) h

def emptyBody : TaskBody := ⟨none, none, none⟩

/-- Witness for C10: an update of a nonexistent task id fails with a non 200
status and leaves the state, cache included, unchanged. -/
theorem claim_C10_w :
    (updateTask false 0 7 99 emptyBody wState).1.status ≠ 200
    ∧ (updateTask false 0 7 99 emptyBody wState).2 = wState :=
  ⟨by decide, (claim_C10 wState 0 7 99 emptyBody false).2.1 (by decide)⟩

end TaskApi
